import Mathlib

/-!
Shallow embedding of the httpize request dispatcher (httpize.go).

The Go source exposes provider methods over HTTP: `Handler.ServeHTTP`
resolves the final path segment to a registered `CallDef`, builds each
declared argument from the first query value via the `ArgDef`'s factory,
validates it (`Arg.Check`), gates invocation on an argument-count check,
invokes the bound method, and shapes the response (status, `Content-Type`,
`Expires`, gzip) from the returned `(io.Reader, *Settings, error)` triple.

Machine-level conventions of the embedding:
* `url.Values` (the result of `url.ParseQuery`) is an association list
  `List (String × List String)`; a successful parse yields distinct keys
  and non-empty value lists, stated as `WellFormedQuery` where needed.
* `reflect.Value`s produced by an argument factory are `ArgValue α`:
  the carried value, whether it implements the `Arg` interface
  (the comma-ok assertion at line 117 of the source), and the result of
  `Check()` (`none` = nil error).
* A Go `error` is `GoError`: either a `Non500Error` (the struct the
  classifier type-asserts to) or some other error value.
* A Go panic is the `Outcome.panicked` constructor; response writes made
  before the panic are discarded, as the surrounding server aborts the
  connection.
* Wall-clock time is the `now : Int` parameter (Unix seconds, UTC), and
  `formatRFC1123` reproduces Go's `Format(time.RFC1123)` on a UTC time.
-/

namespace Httpize

/-- Modelled from the spec: the `Settings` struct (its defining file is not
under src/): content type (empty = unset), cache duration in seconds, and
the gzip-eligibility flag, exactly the fields `ServeHTTP` reads. -/
structure Settings where
  ContentType : String
  Cache : Int
  Gzip : Bool
deriving DecidableEq, Repr

/-- Modelled from the spec: the `Non500Error` struct (its defining file is
not under src/): an application error carrying an HTTP status code, a
status-line string and an optional redirect location, the fields read by
`providerError`. -/
structure Non500Error where
  ErrorCode : Int
  ErrorStr : String
  Location : String
deriving DecidableEq, Repr

/-- A Go `error` value: either a `Non500Error` (matched by the comma-ok
type assertion in `providerError`) or any other non-nil error. -/
inductive GoError where
  | non500 (e : Non500Error)
  | generic (msg : String)
deriving DecidableEq, Repr

/-- The `reflect.Value` returned by an argument factory: the carried value,
whether its dynamic type implements the `Arg` interface (comma-ok assertion,
source line 117), and the result of `Check()` when it does (`none` = nil). -/
structure ArgValue (α : Type) where
  val : α
  isArg : Bool
  check : Option GoError
deriving DecidableEq

/-- One declared parameter of a method: the query key and the factory
mapping the raw string to the constructed value (source `ArgDef`). -/
structure ArgDef (α : Type) where
  name : String
  createFunc : String → ArgValue α

/-- The three-part result of an invoked provider method:
`(io.Reader, *Settings, error)`. `reader = none` is a nil interface value;
`settings = none` is a nil `*Settings`; `err = none` is a nil error. -/
structure MethodResult where
  reader : Option String
  settings : Option Settings
  err : Option GoError

/-- A registered method: the bound callable and its ordered argument
specs (source `CallDef`, after the binding pass of `NewHandler`). -/
structure CallDef (α : Type) where
  methodFunc : List (ArgValue α) → MethodResult
  argDefs : List (ArgDef α)

/-- The handler: its registry (Go `Methods` map, as an association list)
and the process-wide default settings. -/
structure Handler (α : Type) where
  methods : List (String × CallDef α)
  defaultSettings : Settings

/-- An incoming request, restricted to what `ServeHTTP` reads: the HTTP
verb, the URL path, the outcome of `url.ParseQuery(req.URL.RawQuery)`
(`none` = parse error), and `req.Header.Get("Accept-Encoding")`. -/
structure Request where
  method : String
  path : String
  query : Option (List (String × List String))
  acceptEncoding : String

/-- The written response: status code, headers, body bytes as handed to
the (possibly compressing) writer, and whether that writer was the gzip
writer. -/
structure Response where
  status : Int
  headers : List (String × String)
  body : String
  bodyGzipped : Bool
deriving DecidableEq, Repr

/-- The observable outcome of one call to `ServeHTTP`: a written response,
or a panic that unwinds the handler. Either way the list of invocations of
the bound method (each with its argument list) is recorded. -/
inductive Outcome (α : Type) where
  | resp (r : Response) (invocations : List (List (ArgValue α)))
  | panicked (msg : String) (invocations : List (List (ArgValue α)))
deriving DecidableEq

/-- Result of the per-argument pass (source lines 111-130): a validation
error surfaced through `providerError`, a factory output that does not
implement `Arg` (500), or completion with one entry per declared argument
(`none` = parameter absent from the query). -/
inductive ArgsResult (α : Type) where
  | providerErr (e : GoError)
  | badParam
  | done (opts : List (Option (ArgValue α)))
deriving DecidableEq

/-- Go `http.Header.Set`: replace the value under a key, or append it. -/
def setHeader : List (String × String) → String → String → List (String × String)
  | [], k, v => [(k, v)]
  | p :: ps, k, v => if p.1 == k then (k, v) :: ps else p :: setHeader ps k v

/-- Header lookup (headers built by `setHeader` have distinct keys). -/
def getHeader : List (String × String) → String → Option String
  | [], _ => none
  | p :: ps, k => if p.1 == k then some p.2 else getHeader ps k

/-- Go `strings.Contains s sub` (the separator and needle here are ASCII,
so character-level containment coincides with Go's byte-level one). -/
def strContains (s sub : String) : Bool :=
  s.toList.tails.any (fun t => sub.toList.isPrefixOf t)

/-- Go `strings.Split` for a one-character separator, on decoded text. -/
def splitChars (sep : Char) : List Char → List (List Char)
  | [] => [[]]
  | c :: cs =>
    if c = sep then [] :: splitChars sep cs
    else
      match splitChars sep cs with
      | [] => [[c]]
      | h :: t => (c :: h) :: t

/-- Source lines 92-93: `pathParts[len(pathParts)-1]`, the final
`/`-delimited segment of the request path (`strings.Split` never returns
an empty slice, so the fallback of `getLastD` is never used). -/
def lastSegment (s : String) : String :=
  String.mk ((splitChars '/' s.toList).getLastD [])

/-- Two-digit zero padding, as Go's `02`/`15`/`04`/`05` layout fields. -/
def pad2 (n : Nat) : String :=
  if n < 10 then "0" ++ toString n else toString n

/-- Four-digit zero padding, as Go's `2006` layout field. -/
def pad4 (n : Nat) : String :=
  if n < 10 then "000" ++ toString n
  else if n < 100 then "00" ++ toString n
  else if n < 1000 then "0" ++ toString n
  else toString n

def weekdayNames : List String := ["Sun", "Mon", "Tue", "Wed", "Thu", "Fri", "Sat"]

def monthNames : List String :=
  ["Jan", "Feb", "Mar", "Apr", "May", "Jun", "Jul", "Aug", "Sep", "Oct", "Nov", "Dec"]

/-- Proleptic-Gregorian date from days since the Unix epoch (the civil
calendar computation used by any correct `time.Unix(..).UTC()` reading):
returns (year, month 1-12, day 1-31). -/
def civilFromDays (z0 : Int) : Int × Nat × Nat :=
  let z := z0 + 719468
  let era := Int.fdiv z 146097
  let doe := (z - era * 146097).toNat
  let yoe := (doe - doe / 1460 + doe / 36524 - doe / 146096) / 365
  let doy := doe - (365 * yoe + yoe / 4 - yoe / 100)
  let mp := (5 * doy + 2) / 153
  let d := doy - (153 * mp + 2) / 5 + 1
  let m := if mp < 10 then mp + 3 else mp - 9
  (((yoe : Int) + era * 400) + (if m ≤ 2 then 1 else 0), m, d)

/-- Go `time.Unix(t, 0).UTC().Format(time.RFC1123)`: layout
`Mon, 02 Jan 2006 15:04:05 MST` with zone name `UTC`. -/
def formatRFC1123 (t : Int) : String :=
  let days := Int.fdiv t 86400
  let secs := (t - days * 86400).toNat
  let ymd := civilFromDays days
  let wd := (Int.emod (days + 4) 7).toNat
  let yearStr := if ymd.1 < 0 then "-" ++ pad4 (-ymd.1).toNat else pad4 ymd.1.toNat
  weekdayNames.getD wd "" ++ ", " ++ pad2 ymd.2.2 ++ " " ++
    monthNames.getD (ymd.2.1 - 1) "" ++ " " ++ yearStr ++ " " ++
    pad2 (secs / 3600) ++ ":" ++ pad2 (secs % 3600 / 60) ++ ":" ++
    pad2 (secs % 60) ++ " UTC"

/-- Go `http.Error(resp, msg, code)`: sets `Content-Type` and
`X-Content-Type-Options`, writes the status line and `msg` + newline. -/
def httpError (hs : List (String × String)) (msg : String) (code : Int) : Response :=
  { status := code
  , headers := setHeader (setHeader hs "Content-Type" "text/plain; charset=utf-8")
      "X-Content-Type-Options" "nosniff"
  , body := msg ++ "\n"
  , bodyGzipped := false }

/-- Source lines 68-70: `http.Error(resp, "error", 500)`. -/
def fiveHundredError (hs : List (String × String)) : Response :=
  httpError hs "error" 500

/-- Source lines 72-83: the error classifier. A `Non500Error` is written
with its own code and status string, setting `Location` first for the
redirect codes 301/302/303; any other error is a logged generic 500. -/
def providerError (e : GoError) (hs : List (String × String)) : Response :=
  match e with
  | .non500 n =>
    let hs' := if n.ErrorCode = 301 ∨ n.ErrorCode = 302 ∨ n.ErrorCode = 303
      then setHeader hs "Location" n.Location else hs
    httpError hs' n.ErrorStr n.ErrorCode
  | .generic _ => fiveHundredError hs

/-- The first query value Go reads for a declared parameter name
(`getParam[argDef.name]`, then `v[0]`; `url.ParseQuery` never produces an
empty value slice, so the defaults are never used on parsed input). -/
def firstValue (q : List (String × List String)) (name : String) : String :=
  ((q.lookup name).getD []).headD ""

/-- Source lines 111-130: the per-argument pass. For each declared
`ArgDef`, in order: when its name is present, build the value from the
first query value, require it to implement `Arg`, and run `Check()`;
a check error or a non-`Arg` value short-circuits. -/
def processArgs {α : Type} : List (ArgDef α) → List (String × List String) → ArgsResult α
  | [], _ => .done []
  | d :: ds, q =>
    match q.lookup d.name with
    | some v =>
      let a := d.createFunc (v.headD "")
      if a.isArg then
        match a.check with
        | some e => .providerErr e
        | none =>
          match processArgs ds q with
          | .done opts => .done (some a :: opts)
          | r => r
      else .badParam
    | none =>
      match processArgs ds q with
      | .done opts => .done (none :: opts)
      | r => r

/-- Source lines 132-137: `getParamCount`, the total number of supplied
query values across all names, repeats included. -/
def countValues (q : List (String × List String)) : Nat :=
  (q.map (fun p => p.2.length)).sum

/-- Source lines 153-156: the settings returned by the method, or the
handler's default when the method returned a nil `*Settings`. -/
def effectiveSettings (defSettings : Settings) (mr : MethodResult) : Settings :=
  mr.settings.getD defSettings

/-- Source lines 145-189: invoke the bound method and shape the response.
A non-nil returned error goes to the classifier. Otherwise headers are
derived from the effective settings (`Content-Type`; `Expires` only for
GET with positive cache duration; `Content-Encoding` and the gzip writer
only when enabled and accepted). Extracting the returned reader with the
one-value type assertion `rvals[0].Interface().(io.Reader)` panics when
the method returned a nil reader with a nil error, so the `reader == nil`
branch of the source (lines 178-182) is unreachable. -/
def runMethod {α : Type} (cd : CallDef α) (args : List (ArgValue α))
    (reqMethod acceptEnc : String) (defSettings : Settings) (now : Int) : Outcome α :=
  let rvals := cd.methodFunc args
  match rvals.err with
  | some e => .resp (providerError e []) [args]
  | none =>
    let settings := effectiveSettings defSettings rvals
    let hs1 := if settings.ContentType ≠ "" then
        setHeader [] "Content-Type" settings.ContentType else []
    let hs2 := if settings.Cache > 0 ∧ reqMethod = "GET" then
        setHeader hs1 "Expires" (formatRFC1123 (now + settings.Cache)) else hs1
    let useGzip := settings.Gzip && strContains acceptEnc "gzip"
    let hs3 := if useGzip then setHeader hs2 "Content-Encoding" "gzip" else hs2
    match rvals.reader with
    | none => .panicked "interface conversion: interface is nil, not io.Reader" [args]
    | some body => .resp ⟨200, hs3, body, useGzip⟩ [args]

/-- Source lines 108-143 plus the invocation: run the per-argument pass,
then gate on `foundArgs == numArgs && foundArgs == getParamCount`
(`foundArgs` is the number of constructed arguments, i.e. of present
declared parameters). -/
def handleCall {α : Type} (cd : CallDef α) (q : List (String × List String))
    (reqMethod acceptEnc : String) (defSettings : Settings) (now : Int) : Outcome α :=
  match processArgs cd.argDefs q with
  | .providerErr e => .resp (providerError e []) []
  | .badParam => .resp (fiveHundredError []) []
  | .done opts =>
    if (opts.filterMap id).length ≠ cd.argDefs.length ∨
        (opts.filterMap id).length ≠ countValues q then
      .resp (fiveHundredError []) []
    else
      runMethod cd (opts.filterMap id) reqMethod acceptEnc defSettings now

/-- Source lines 85-189: `Handler.ServeHTTP`. Reject verbs other than GET
and POST; resolve the final path segment in the registry; reject a
malformed query; then hand over to the argument pass and invocation. -/
def ServeHTTP {α : Type} (h : Handler α) (req : Request) (now : Int) : Outcome α :=
  if req.method ≠ "GET" ∧ req.method ≠ "POST" then .resp (fiveHundredError []) []
  else
    match h.methods.lookup (lastSegment req.path) with
    | none => .resp (fiveHundredError []) []
    | some callDef =>
      match req.query with
      | none => .resp (fiveHundredError []) []
      | some getParam =>
        handleCall callDef getParam req.method req.acceptEncoding h.defaultSettings now

/-- A registration-time argument factory as `Methods.Add` sees it: the
shape reflection reports (whether it is a function, its input count, the
`Kind` of its first input, its output count) together with its meaning
once accepted. -/
structure RawFactory (α : Type) where
  isFunc : Bool
  numIn : Nat
  in0Kind : String
  numOut : Nat
  fn : String → ArgValue α

/-- A registration-time `ArgDef`: name plus the stored raw factory. -/
structure RawArgDef (α : Type) where
  name : String
  createFunc : RawFactory α

/-- The registration-time `Methods` map (`methodFunc` is bound later by
`NewHandler`, which is not part of the claims). -/
def Methods (α : Type) : Type := List (String × List (RawArgDef α))

/-- Go map assignment `a[methodName] = callDef`: replace or append. -/
def setMethod {α : Type} : Methods α → String → List (RawArgDef α) → Methods α
  | [], k, v => [(k, v)]
  | p :: ps, k, v => if p.1 == k then (k, v) :: ps else p :: setMethod ps k v

/-- The outcome of `Methods.Add`: the updated map, or a panic. -/
inductive AddOutcome (α : Type) where
  | ok (m : Methods α)
  | panicked (msg : String)

/-- Source lines 202-216: the per-factory checks of the `Add` loop, in
source order with Go's short-circuit evaluation. `v.Kind() != reflect.Func`
panics; then the source condition is literally
`v.Type().NumIn() != 1 && v.Type().In(0).Kind() != reflect.String` — when
`NumIn() != 1` holds, `In(0)` is evaluated, which itself panics inside
reflect if the function has no inputs; finally `NumOut() != 1` panics. -/
def checkFactory {α : Type} (f : RawFactory α) : Option String :=
  if f.isFunc = false then some "argCreateFunc is not a function"
  else if f.numIn ≠ 1 then
    if f.numIn = 0 then some "reflect: Func Type.In: index out of range"
    else if f.in0Kind ≠ "String" then some "argCreateFunc incorrect parameter"
    else if f.numOut ≠ 1 then some "argCreateFunc missing return value"
    else none
  else if f.numOut ≠ 1 then some "argCreateFunc missing return value"
  else none

/-- The loop of source lines 202-216 over the name/factory pairs. -/
def buildArgDefs {α : Type} :
    List String → List (RawFactory α) → Except String (List (RawArgDef α))
  | [], _ => .ok []
  | _, [] => .ok []
  | n :: ns, f :: fs =>
    match checkFactory f with
    | some msg => .error msg
    | none =>
      match buildArgDefs ns fs with
      | .ok rest => .ok (⟨n, f⟩ :: rest)
      | .error msg => .error msg

/-- Source lines 191-218: `Methods.Add`. Panics on mismatched list
lengths, on more than 10 parameters, and on whatever `checkFactory`
rejects; otherwise stores the new `CallDef` under the method name,
silently overwriting any previous entry. -/
def MethodsAdd {α : Type} (a : Methods α) (methodName : String)
    (argNames : List String) (argCreateFuncs : List (RawFactory α)) : AddOutcome α :=
  let numArgs := argNames.length
  if numArgs ≠ argCreateFuncs.length then
    .panicked "Add method fail, argNames and argCreateFuncs array have different length"
  else if numArgs > 10 then
    .panicked "Add method fail, too many parameters (>10)"
  else
    match buildArgDefs argNames argCreateFuncs with
    | .error msg => .panicked msg
    | .ok argDefs => .ok (setMethod a methodName argDefs)

/-- The keys of a parsed query (`url.Values` has one entry per name). -/
def qKeys (q : List (String × List String)) : List String := q.map Prod.fst

/-- Invariant guaranteed by a successful `url.ParseQuery`: one entry per
name and a non-empty value slice for every present name. -/
def WellFormedQuery (q : List (String × List String)) : Prop :=
  (qKeys q).Nodup ∧ ∀ p ∈ q, p.2 ≠ []

instance (q : List (String × List String)) : Decidable (WellFormedQuery q) := by
  unfold WellFormedQuery; infer_instance

/-- Some declared parameter is absent from the query. -/
def missingParam (names : List String) (q : List (String × List String)) : Prop :=
  ∃ a ∈ names, a ∉ qKeys q

/-- Some declared parameter is supplied more than once. -/
def dupParam (names : List String) (q : List (String × List String)) : Prop :=
  ∃ p ∈ q, p.1 ∈ names ∧ 2 ≤ p.2.length

/-- Some supplied parameter is not declared. -/
def extraParam (names : List String) (q : List (String × List String)) : Prop :=
  ∃ k ∈ qKeys q, k ∉ names

instance (names : List String) (q : List (String × List String)) :
    Decidable (missingParam names q) := by
  unfold missingParam; infer_instance

instance (names : List String) (q : List (String × List String)) :
    Decidable (dupParam names q) := by
  unfold dupParam; infer_instance

instance (names : List String) (q : List (String × List String)) :
    Decidable (extraParam names q) := by
  unfold extraParam; infer_instance

/-- The invocations recorded by an outcome. -/
def invocationsOf {α : Type} : Outcome α → List (List (ArgValue α))
  | .resp _ invs => invs
  | .panicked _ invs => invs

/-- The status of a written response (`none` when the handler panicked). -/
def statusOf {α : Type} : Outcome α → Option Int
  | .resp r _ => some r.status
  | .panicked _ _ => none

/-- A header of the written response (`none` when the handler panicked). -/
def headerOf {α : Type} (o : Outcome α) (k : String) : Option String :=
  match o with
  | .resp r _ => getHeader r.headers k
  | .panicked _ _ => none

/-- The body of the written response (`none` when the handler panicked). -/
def bodyOf {α : Type} : Outcome α → Option String
  | .resp r _ => some r.body
  | .panicked _ _ => none

/-- Whether the body went through the gzip writer. -/
def gzippedOf {α : Type} : Outcome α → Option Bool
  | .resp r _ => some r.bodyGzipped
  | .panicked _ _ => none

/-- Fixture: the `Echo` argument spec — a validated string accepted as-is. -/
def echoArgDef : ArgDef String := ⟨"name", fun s => ⟨s, true, none⟩⟩

/-- Fixture: `Echo(name)` returns body `"Echo " + name` with HTML settings. -/
def cdEcho : CallDef String :=
  { methodFunc := fun args =>
      { reader := some ("Echo " ++ (args.headD ⟨"", true, none⟩).val)
      , settings := some ⟨"text/html", 0, false⟩
      , err := none }
  , argDefs := [echoArgDef] }

/-- Fixture: a zero-argument method returning the 303 application error of
the repository's test suite. -/
def cd303 : CallDef String :=
  { methodFunc := fun _ =>
      { reader := none, settings := none
      , err := some (.non500 ⟨303, "See Other", "http://lookhere"⟩) }
  , argDefs := [] }

/-- Fixture: a zero-argument method with caching and gzip enabled. -/
def cdCache : CallDef String :=
  { methodFunc := fun _ =>
      { reader := some "Hello World"
      , settings := some ⟨"text/html", 300, true⟩
      , err := none }
  , argDefs := [] }

/-- Fixture: a method returning a nil reader together with a nil error. -/
def cdNilStream : CallDef String :=
  { methodFunc := fun _ => { reader := none, settings := none, err := none }
  , argDefs := [] }

/-- Fixture: one parameter whose validation rejects the value "bad". -/
def cdValFail : CallDef String :=
  { methodFunc := fun _ => { reader := some "ok", settings := none, err := none }
  , argDefs := [⟨"v", fun s =>
      ⟨s, true, if s = "bad" then some (.non500 ⟨403, "Forbidden", ""⟩) else none⟩⟩] }

/-- Fixture handler registering the methods above. -/
def hAll : Handler String :=
  { methods :=
      [("Echo", cdEcho), ("ThreeOhThree", cd303), ("Cache", cdCache),
       ("NilStream", cdNilStream), ("ValFail", cdValFail)]
  , defaultSettings := ⟨"text/html", 0, false⟩ }

/-- Fixture: a one-input factory whose input kind is `Int`, not `String`. -/
def intFactory : RawFactory String := ⟨true, 1, "Int", 1, fun s => ⟨s, false, none⟩⟩

/-! Helper lemmas about headers, lookups and the argument pass. -/

theorem getHeader_setHeader_self (hs : List (String × String)) (k v : String) :
    getHeader (setHeader hs k v) k = some v := by
  induction hs with
  | nil => simp [setHeader, getHeader]
  | cons p ps ih =>
    by_cases h : p.1 = k
    · simp [setHeader, getHeader, h]
    · simp [setHeader, getHeader, h, ih]

theorem getHeader_setHeader_ne (hs : List (String × String)) (k k' v : String)
    (hne : k ≠ k') : getHeader (setHeader hs k v) k' = getHeader hs k' := by
  induction hs with
  | nil => simp [setHeader, getHeader, hne]
  | cons p ps ih =>
    by_cases h : p.1 = k
    · subst h; simp [setHeader, getHeader, hne]
    · simp [setHeader, getHeader, h, ih]

theorem lookup_isSome_iff {β : Type} (q : List (String × β)) (a : String) :
    (q.lookup a).isSome = true ↔ a ∈ q.map Prod.fst := by
  induction q with
  | nil => simp [List.lookup]
  | cons p ps ih =>
    obtain ⟨k, b⟩ := p
    by_cases h : a = k
    · subst h; simp [List.lookup]
    · have hb : (a == k) = false := beq_eq_false_iff_ne.mpr h
      simp only [List.lookup, hb, List.map_cons, List.mem_cons]
      simp [h, ih]

theorem lookup_mem_of_isSome {β : Type} (q : List (String × β)) (a : String)
    (vs : β) (h : q.lookup a = some vs) : (a, vs) ∈ q := by
  induction q with
  | nil => simp [List.lookup] at h
  | cons p ps ih =>
    obtain ⟨k, b⟩ := p
    by_cases ha : a = k
    · subst ha
      simp [List.lookup] at h
      subst h
      exact List.mem_cons_self _ _
    · have hb : (a == k) = false := beq_eq_false_iff_ne.mpr ha
      simp only [List.lookup, hb] at h
      exact List.mem_cons_of_mem _ (ih h)

theorem processArgs_done_found {α : Type} (ds : List (ArgDef α))
    (q : List (String × List String)) (opts : List (Option (ArgValue α)))
    (h : processArgs ds q = .done opts) :
    (opts.filterMap id).length
      = ((ds.map ArgDef.name).filter (fun n => (q.lookup n).isSome)).length := by
  induction ds generalizing opts with
  | nil =>
    simp only [processArgs, ArgsResult.done.injEq] at h
    subst h
    simp
  | cons d ds ih =>
    simp only [processArgs] at h
    cases hl : q.lookup d.name with
    | none =>
      rw [hl] at h
      simp only at h
      cases hr : processArgs ds q with
      | done opts' =>
        rw [hr] at h
        simp only [ArgsResult.done.injEq] at h
        subst h
        have hsome : ((q.lookup d.name).isSome = true) = False := by simp [hl]
        simp only [List.filterMap_cons_none, List.map_cons, List.filter_cons, hsome,
          decide_False, Bool.false_eq_true, if_false]
        exact ih opts' hr
      | providerErr e => rw [hr] at h; simp at h
      | badParam => rw [hr] at h; simp at h
    | some v =>
      rw [hl] at h
      simp only at h
      by_cases ha : (d.createFunc (v.headD "")).isArg = true
      · rw [if_pos ha] at h
        cases hc : (d.createFunc (v.headD "")).check with
        | some e => rw [hc] at h; simp at h
        | none =>
          rw [hc] at h
          cases hr : processArgs ds q with
          | done opts' =>
            rw [hr] at h
            simp only [ArgsResult.done.injEq] at h
            subst h
            have hsome : (q.lookup d.name).isSome = true := by simp [hl]
            simp only [List.filterMap_cons_some, List.map_cons, List.filter_cons, hsome,
              decide_True, if_true, List.length_cons]
            exact congrArg Nat.succ (ih opts' hr)
          | providerErr e => rw [hr] at h; simp at h
          | badParam => rw [hr] at h; simp at h
      · rw [if_neg ha] at h; simp at h

theorem processArgs_firstFail {α : Type} (ds₁ : List (ArgDef α)) (d : ArgDef α)
    (ds₂ : List (ArgDef α)) (q : List (String × List String)) (vs : List String)
    (e : GoError)
    (hprev : ∀ d' ∈ ds₁, (q.lookup d'.name).isSome = true →
      (d'.createFunc (firstValue q d'.name)).isArg = true ∧
      (d'.createFunc (firstValue q d'.name)).check = none)
    (hpres : q.lookup d.name = some vs)
    (hisarg : (d.createFunc (vs.headD "")).isArg = true)
    (hfail : (d.createFunc (vs.headD "")).check = some e) :
    processArgs (ds₁ ++ d :: ds₂) q = .providerErr e := by
  induction ds₁ with
  | nil =>
    simp only [List.nil_append, processArgs, hpres, hisarg, if_true, hfail]
  | cons d' ds₁ ih =>
    have ih' := ih (fun x hx hs => hprev x (List.mem_cons_of_mem _ hx) hs)
    simp only [List.cons_append, processArgs]
    cases hl : q.lookup d'.name with
    | none =>
      simp only [List.append_eq, ih']
    | some v =>
      have hsome : (q.lookup d'.name).isSome = true := by simp [hl]
      obtain ⟨hA, hC⟩ := hprev d' (List.mem_cons_self _ _) hsome
      have hfv : firstValue q d'.name = v.headD "" := by
        unfold firstValue
        rw [hl]
        rfl
      rw [hfv] at hA hC
      simp only [List.append_eq, hA, if_true, hC, ih']

theorem processArgs_allPass {α : Type} (ds : List (ArgDef α))
    (q : List (String × List String))
    (hpres : ∀ d ∈ ds, (q.lookup d.name).isSome = true)
    (hok : ∀ d ∈ ds, (d.createFunc (firstValue q d.name)).isArg = true ∧
      (d.createFunc (firstValue q d.name)).check = none) :
    processArgs ds q
      = .done (ds.map (fun d => some (d.createFunc (firstValue q d.name)))) := by
  induction ds with
  | nil => simp [processArgs]
  | cons d ds ih =>
    have ih' := ih (fun x hx => hpres x (List.mem_cons_of_mem _ hx))
      (fun x hx => hok x (List.mem_cons_of_mem _ hx))
    have hs := hpres d (List.mem_cons_self _ _)
    obtain ⟨v, hv⟩ := Option.isSome_iff_exists.mp hs
    obtain ⟨hA, hC⟩ := hok d (List.mem_cons_self _ _)
    have hfv : firstValue q d.name = v.headD "" := by
      unfold firstValue
      rw [hv]
      rfl
    rw [hfv] at hA hC
    simp only [processArgs, hv, hA, if_true, hC, ih', List.map_cons, hfv]

theorem length_le_countValues (q : List (String × List String))
    (hwf : ∀ p ∈ q, p.2 ≠ []) : q.length ≤ countValues q := by
  induction q with
  | nil => simp [countValues]
  | cons p ps ih =>
    have h1 : 1 ≤ p.2.length := List.length_pos.mpr (hwf p (List.mem_cons_self _ _))
    have h2 := ih (fun x hx => hwf x (List.mem_cons_of_mem _ hx))
    simp only [countValues, List.map_cons, List.sum_cons, List.length_cons] at h2 ⊢
    omega

theorem succ_length_le_countValues_of_dup (q : List (String × List String))
    (hwf : ∀ p ∈ q, p.2 ≠ []) (p₀ : String × List String) (hp₀ : p₀ ∈ q)
    (hd : 2 ≤ p₀.2.length) : q.length + 1 ≤ countValues q := by
  induction q with
  | nil => simp at hp₀
  | cons p ps ih =>
    simp only [countValues, List.map_cons, List.sum_cons, List.length_cons]
    rcases List.mem_cons.mp hp₀ with h | h
    · subst h
      have := length_le_countValues ps (fun x hx => hwf x (List.mem_cons_of_mem _ hx))
      unfold countValues at this
      omega
    · have h1 : 1 ≤ p.2.length := List.length_pos.mpr (hwf p (List.mem_cons_self _ _))
      have h2 := ih (fun x hx => hwf x (List.mem_cons_of_mem _ hx)) h
      unfold countValues at h2
      omega

theorem filter_length_lt_of_exists_not {l : List String} {p : String → Bool}
    (h : ∃ a ∈ l, p a = false) : (l.filter p).length < l.length := by
  induction l with
  | nil => simp at h
  | cons a l ih =>
    obtain ⟨b, hb, hpb⟩ := h
    by_cases hpa : p a = false
    · simp only [List.filter_cons, hpa, Bool.false_eq_true, if_false, List.length_cons]
      exact Nat.lt_succ_of_le (List.length_filter_le _ _)
    · have hpa' : p a = true := by
        cases hval : p a
        · exact absurd hval hpa
        · rfl
      have hbne : b ≠ a := fun hEq => by rw [hEq, hpa'] at hpb; exact Bool.noConfusion hpb
      have hbl : b ∈ l := by
        rcases List.mem_cons.mp hb with h | h
        · exact absurd h hbne
        · exact h
      have := ih ⟨b, hbl, hpb⟩
      simp only [List.filter_cons, hpa', if_true, List.length_cons]
      omega

theorem nodup_subset_length {l₁ l₂ : List String} (hnd : l₁.Nodup)
    (hsub : l₁ ⊆ l₂) : l₁.length ≤ l₂.length :=
  (hnd.subperm hsub).length_le

/-! Unfolding lemmas for the dispatcher pipeline. -/

theorem ServeHTTP_eq_handleCall {α : Type} (h : Handler α) (req : Request)
    (now : Int) (cd : CallDef α) (q : List (String × List String))
    (hm : req.method = "GET" ∨ req.method = "POST")
    (hcd : h.methods.lookup (lastSegment req.path) = some cd)
    (hq : req.query = some q) :
    ServeHTTP h req now
      = handleCall cd q req.method req.acceptEncoding h.defaultSettings now := by
  rcases hm with hm | hm <;> simp [ServeHTTP, hm, hcd, hq]

theorem handleCall_counts_bad {α : Type} (cd : CallDef α)
    (q : List (String × List String)) (m enc : String) (ds : Settings) (now : Int)
    (opts : List (Option (ArgValue α)))
    (hreach : processArgs cd.argDefs q = .done opts)
    (hbad : (opts.filterMap id).length ≠ cd.argDefs.length ∨
      (opts.filterMap id).length ≠ countValues q) :
    handleCall cd q m enc ds now = .resp (fiveHundredError []) [] := by
  simp only [handleCall, hreach]
  rw [if_pos hbad]

theorem handleCall_counts_ok {α : Type} (cd : CallDef α)
    (q : List (String × List String)) (m enc : String) (ds : Settings) (now : Int)
    (opts : List (Option (ArgValue α)))
    (hreach : processArgs cd.argDefs q = .done opts)
    (h1 : (opts.filterMap id).length = cd.argDefs.length)
    (h2 : (opts.filterMap id).length = countValues q) :
    handleCall cd q m enc ds now = runMethod cd (opts.filterMap id) m enc ds now := by
  simp only [handleCall, hreach]
  rw [if_neg]
  push_neg
  exact ⟨h1, h2⟩

theorem handleCall_providerErr {α : Type} (cd : CallDef α)
    (q : List (String × List String)) (m enc : String) (ds : Settings) (now : Int)
    (e : GoError) (hpe : processArgs cd.argDefs q = .providerErr e) :
    handleCall cd q m enc ds now = .resp (providerError e []) [] := by
  simp only [handleCall, hpe]

theorem runMethod_err {α : Type} (cd : CallDef α) (args : List (ArgValue α))
    (m enc : String) (ds : Settings) (now : Int) (e : GoError)
    (he : (cd.methodFunc args).err = some e) :
    runMethod cd args m enc ds now = .resp (providerError e []) [args] := by
  simp only [runMethod, he]

theorem runMethod_success {α : Type} (cd : CallDef α) (args : List (ArgValue α))
    (m enc : String) (ds : Settings) (now : Int) (r : String)
    (he : (cd.methodFunc args).err = none)
    (hr : (cd.methodFunc args).reader = some r) :
    runMethod cd args m enc ds now =
      .resp
        ⟨200,
          (if (effectiveSettings ds (cd.methodFunc args)).Gzip
              && strContains enc "gzip" then
            setHeader
              (if (effectiveSettings ds (cd.methodFunc args)).Cache > 0 ∧ m = "GET" then
                setHeader
                  (if (effectiveSettings ds (cd.methodFunc args)).ContentType ≠ "" then
                    setHeader [] "Content-Type"
                      (effectiveSettings ds (cd.methodFunc args)).ContentType
                  else [])
                  "Expires"
                  (formatRFC1123 (now + (effectiveSettings ds (cd.methodFunc args)).Cache))
              else
                (if (effectiveSettings ds (cd.methodFunc args)).ContentType ≠ "" then
                  setHeader [] "Content-Type"
                    (effectiveSettings ds (cd.methodFunc args)).ContentType
                else []))
              "Content-Encoding" "gzip"
          else
            (if (effectiveSettings ds (cd.methodFunc args)).Cache > 0 ∧ m = "GET" then
              setHeader
                (if (effectiveSettings ds (cd.methodFunc args)).ContentType ≠ "" then
                  setHeader [] "Content-Type"
                    (effectiveSettings ds (cd.methodFunc args)).ContentType
                else [])
                "Expires"
                (formatRFC1123 (now + (effectiveSettings ds (cd.methodFunc args)).Cache))
            else
              (if (effectiveSettings ds (cd.methodFunc args)).ContentType ≠ "" then
                setHeader [] "Content-Type"
                  (effectiveSettings ds (cd.methodFunc args)).ContentType
              else []))),
          r,
          (effectiveSettings ds (cd.methodFunc args)).Gzip && strContains enc "gzip"⟩
        [args] := by
  simp only [runMethod, he, hr]

theorem runMethod_nilReader {α : Type} (cd : CallDef α) (args : List (ArgValue α))
    (m enc : String) (ds : Settings) (now : Int)
    (he : (cd.methodFunc args).err = none)
    (hr : (cd.methodFunc args).reader = none) :
    runMethod cd args m enc ds now =
      .panicked "interface conversion: interface is nil, not io.Reader" [args] := by
  simp only [runMethod, he, hr]

theorem runMethod_invocations {α : Type} (cd : CallDef α)
    (args : List (ArgValue α)) (m enc : String) (ds : Settings) (now : Int) :
    invocationsOf (runMethod cd args m enc ds now) = [args] := by
  cases he : (cd.methodFunc args).err with
  | some e =>
    rw [runMethod_err cd args m enc ds now e he]
    rfl
  | none =>
    cases hr : (cd.methodFunc args).reader with
    | none =>
      rw [runMethod_nilReader cd args m enc ds now he hr]
      rfl
    | some r =>
      rw [runMethod_success cd args m enc ds now r he hr]
      rfl

theorem filterMap_id_map_some {α β : Type} (l : List α) (f : α → Option β) :
    (l.map f).filterMap id = l.filterMap f := by
  induction l with
  | nil => rfl
  | cons a l ih => cases h : f a <;> simp [h, ih]

theorem countValues_eq_length_of_single (q : List (String × List String))
    (hone : ∀ p ∈ q, p.2.length = 1) : countValues q = q.length := by
  induction q with
  | nil => rfl
  | cons p ps ih =>
    have h1 := hone p (List.mem_cons_self _ _)
    have h2 := ih (fun x hx => hone x (List.mem_cons_of_mem _ hx))
    simp only [countValues, List.map_cons, List.sum_cons, List.length_cons] at h2 ⊢
    omega

/-! Lemmas about `strings.Split` on the path separator. -/

theorem splitChars_ne_nil (sep : Char) (l : List Char) : splitChars sep l ≠ [] := by
  cases l with
  | nil => simp [splitChars]
  | cons c cs =>
    simp only [splitChars]
    by_cases h : c = sep
    · simp [h]
    · simp only [h, if_false]
      cases splitChars sep cs <;> simp

theorem splitChars_append_sep_two_le (sep : Char) (l : List Char) :
    2 ≤ (splitChars sep (l ++ [sep])).length := by
  induction l with
  | nil => simp [splitChars]
  | cons c cs ih =>
    simp only [List.cons_append, splitChars, List.append_eq]
    by_cases h : c = sep
    · have h1 : (splitChars sep (cs ++ [sep])).length ≠ 0 :=
        fun h0 => splitChars_ne_nil sep _ (List.length_eq_zero.mp h0)
      rw [if_pos h, List.length_cons]
      omega
    · rw [if_neg h]
      cases hr : splitChars sep (cs ++ [sep]) with
      | nil => exact absurd hr (splitChars_ne_nil sep _)
      | cons hd tl =>
        rw [hr] at ih
        simpa using ih

theorem splitChars_append_sep_getLast (sep : Char) (l : List Char) :
    (splitChars sep (l ++ [sep])).getLast? = some [] := by
  induction l with
  | nil => simp [splitChars]
  | cons c cs ih =>
    simp only [List.cons_append, splitChars, List.append_eq]
    by_cases h : c = sep
    · rw [if_pos h]
      cases hr : splitChars sep (cs ++ [sep]) with
      | nil => exact absurd hr (splitChars_ne_nil sep _)
      | cons hd tl =>
        rw [hr] at ih
        simpa [List.getLast?_cons_cons] using ih
    · rw [if_neg h]
      cases hr : splitChars sep (cs ++ [sep]) with
      | nil => exact absurd hr (splitChars_ne_nil sep _)
      | cons hd tl =>
        rw [hr] at ih
        have h2 := splitChars_append_sep_two_le sep cs
        rw [hr] at h2
        cases tl with
        | nil => simp at h2
        | cons x xs =>
          rw [List.getLast?_cons_cons] at ih ⊢
          exact ih

theorem lastSegment_of_endsWith_slash (s : String) (h : ∃ t, s = t ++ "/") :
    lastSegment s = "" := by
  obtain ⟨t, rfl⟩ := h
  unfold lastSegment
  have hdata : (t ++ "/").toList = t.toList ++ ['/'] := by
    cases t with | mk data => rfl
  rw [hdata, List.getLastD_eq_getLast?, splitChars_append_sep_getLast]
  rfl

/-! The claims. -/

/-- C1: for every registered method and every request that reaches the
parameter-count check, `ServeHTTP` invokes the bound method only if the
number of declared parameters found in the query equals the number of
declared parameters and also equals the total count of all supplied query
values; and any such request missing a declared parameter, supplying a
declared parameter more than once, or supplying an undeclared parameter is
answered with HTTP 500 and the method is never invoked. -/
theorem C1_param_count_gate {α : Type} (h : Handler α) (req : Request)
    (now : Int) (cd : CallDef α) (q : List (String × List String))
    (opts : List (Option (ArgValue α)))
    (hm : req.method = "GET" ∨ req.method = "POST")
    (hcd : h.methods.lookup (lastSegment req.path) = some cd)
    (hq : req.query = some q)
    (hwf : WellFormedQuery q)
    (hnd : (cd.argDefs.map ArgDef.name).Nodup)
    (hreach : processArgs cd.argDefs q = .done opts) :
    (invocationsOf (ServeHTTP h req now) ≠ [] →
      (opts.filterMap id).length = cd.argDefs.length ∧
      (opts.filterMap id).length = countValues q) ∧
    (missingParam (cd.argDefs.map ArgDef.name) q ∨
     dupParam (cd.argDefs.map ArgDef.name) q ∨
     extraParam (cd.argDefs.map ArgDef.name) q →
      ServeHTTP h req now = .resp (fiveHundredError []) []) := by
  have hserve := ServeHTTP_eq_handleCall h req now cd q hm hcd hq
  have hfound := processArgs_done_found cd.argDefs q opts hreach
  constructor
  · intro hinv
    by_cases hcond : (opts.filterMap id).length = cd.argDefs.length ∧
        (opts.filterMap id).length = countValues q
    · exact hcond
    · rw [not_and_or] at hcond
      have h500 := handleCall_counts_bad cd q req.method req.acceptEncoding
        h.defaultSettings now opts hreach hcond
      rw [hserve, h500] at hinv
      exact absurd rfl hinv
  · intro hbad
    rw [hserve]
    apply handleCall_counts_bad cd q req.method req.acceptEncoding
      h.defaultSettings now opts hreach
    by_cases hmiss : missingParam (cd.argDefs.map ArgDef.name) q
    · left
      obtain ⟨a, ha, hna⟩ := hmiss
      have hfalse : (q.lookup a).isSome = false := by
        cases hv : (q.lookup a).isSome
        · rfl
        · exact absurd ((lookup_isSome_iff q a).mp hv) hna
      have hlt := @filter_length_lt_of_exists_not (cd.argDefs.map ArgDef.name)
        (fun n => (q.lookup n).isSome) ⟨a, ha, hfalse⟩
      have hlen : (cd.argDefs.map ArgDef.name).length = cd.argDefs.length :=
        List.length_map _ _
      omega
    · have hall : ∀ a ∈ cd.argDefs.map ArgDef.name, a ∈ qKeys q := by
        intro a ha
        by_contra hna
        exact hmiss ⟨a, ha, hna⟩
      have hfeq : (cd.argDefs.map ArgDef.name).filter
          (fun n => (q.lookup n).isSome) = cd.argDefs.map ArgDef.name :=
        List.filter_eq_self.mpr
          (fun a ha => (lookup_isSome_iff q a).mpr (hall a ha))
      right
      rw [hfound, hfeq]
      have hsub : cd.argDefs.map ArgDef.name ⊆ qKeys q := fun a ha => hall a ha
      have hlenq : (qKeys q).length = q.length := List.length_map _ _
      have hle : (cd.argDefs.map ArgDef.name).length ≤ q.length := by
        have := nodup_subset_length hnd hsub
        omega
      have hcnt := length_le_countValues q hwf.2
      rcases hbad with hb | hb | hb
      · exact absurd hb hmiss
      · obtain ⟨p₀, hp₀, _, hd2⟩ := hb
        have := succ_length_le_countValues_of_dup q hwf.2 p₀ hp₀ hd2
        omega
      · obtain ⟨k, hk, hkn⟩ := hb
        have hnd2 : (k :: cd.argDefs.map ArgDef.name).Nodup :=
          List.nodup_cons.mpr ⟨hkn, hnd⟩
        have hsub2 : (k :: cd.argDefs.map ArgDef.name) ⊆ qKeys q := by
          intro x hx
          rcases List.mem_cons.mp hx with rfl | hx
          · exact hk
          · exact hall x hx
        have hle2 := nodup_subset_length hnd2 hsub2
        simp only [List.length_cons] at hle2
        omega

/-- C1 witness: the `Echo` method called with its declared parameter plus
an undeclared extra one reaches the count check and is answered 500 with
no invocation. -/
theorem C1_witness :
    (invocationsOf (ServeHTTP hAll
        ⟨"GET", "/Echo", some [("name", ["G"]), ("bad", ["B"])], ""⟩ 0) ≠ [] →
      (([some (ArgValue.mk "G" true none)].filterMap id).length
          = cdEcho.argDefs.length ∧
        ([some (ArgValue.mk "G" true none)].filterMap id).length
          = countValues [("name", ["G"]), ("bad", ["B"])])) ∧
    (missingParam (cdEcho.argDefs.map ArgDef.name) [("name", ["G"]), ("bad", ["B"])] ∨
     dupParam (cdEcho.argDefs.map ArgDef.name) [("name", ["G"]), ("bad", ["B"])] ∨
     extraParam (cdEcho.argDefs.map ArgDef.name) [("name", ["G"]), ("bad", ["B"])] →
      ServeHTTP hAll ⟨"GET", "/Echo", some [("name", ["G"]), ("bad", ["B"])], ""⟩ 0
        = .resp (fiveHundredError []) []) :=
  C1_param_count_gate hAll
    ⟨"GET", "/Echo", some [("name", ["G"]), ("bad", ["B"])], ""⟩ 0 cdEcho
    [("name", ["G"]), ("bad", ["B"])] [some (ArgValue.mk "G" true none)]
    (Or.inl rfl) rfl rfl (by constructor <;> decide) (by decide) rfl

/-- C2 counterexample: the claim promises HTTP 200 for every exact-match
request whose constructed arguments pass validation, but a registered
zero-parameter method that itself returns the 303 application error of the
repository's tests satisfies every premise of the claim (GET, matching
final path segment, exactly the declared parameters supplied once each,
all validations pass vacuously) and yields status 303, not 200. -/
theorem C2_counterexample :
    ServeHTTP hAll ⟨"GET", "/ThreeOhThree", some [], ""⟩ 0
      = .resp (providerError
          (.non500 ⟨303, "See Other", "http://lookhere"⟩) []) [[]] ∧
    statusOf (ServeHTTP hAll ⟨"GET", "/ThreeOhThree", some [], ""⟩ 0)
      ≠ some 200 := by
  constructor
  · rfl
  · intro hcontra
    have : (303 : Int) = 200 := by
      have h1 : statusOf (ServeHTTP hAll ⟨"GET", "/ThreeOhThree", some [], ""⟩ 0)
          = some 303 := rfl
      rw [h1] at hcontra
      exact Option.some.inj hcontra
    exact absurd this (by decide)

/-- C2 (amended): for every registered method with N declared parameters,
a GET or POST request whose final path segment is the method name and
whose query supplies exactly those N parameters, once each, with values
whose constructed arguments pass validation, invokes the bound method
exactly once with arguments built from the first query value of each
parameter in declared order — whatever the invocation returns; and when
that invocation returns a nil error and a non-nil body stream, the
response is HTTP 200. -/
theorem C2_exact_query_success {α : Type} (h : Handler α) (req : Request)
    (now : Int) (cd : CallDef α) (q : List (String × List String))
    (hm : req.method = "GET" ∨ req.method = "POST")
    (hcd : h.methods.lookup (lastSegment req.path) = some cd)
    (hq : req.query = some q)
    (hwf : WellFormedQuery q)
    (hnd : (cd.argDefs.map ArgDef.name).Nodup)
    (hmem : ∀ k, k ∈ qKeys q ↔ k ∈ cd.argDefs.map ArgDef.name)
    (hone : ∀ p ∈ q, p.2.length = 1)
    (hok : ∀ d ∈ cd.argDefs, (d.createFunc (firstValue q d.name)).isArg = true ∧
      (d.createFunc (firstValue q d.name)).check = none) :
    invocationsOf (ServeHTTP h req now)
      = [cd.argDefs.map (fun d => d.createFunc (firstValue q d.name))] ∧
    ∀ r, (cd.methodFunc (cd.argDefs.map
        (fun d => d.createFunc (firstValue q d.name)))).err = none →
      (cd.methodFunc (cd.argDefs.map
        (fun d => d.createFunc (firstValue q d.name)))).reader = some r →
      statusOf (ServeHTTP h req now) = some 200 := by
  have hpres : ∀ d ∈ cd.argDefs, (q.lookup d.name).isSome = true := by
    intro d hd
    exact (lookup_isSome_iff q d.name).mpr
      ((hmem d.name).mpr (List.mem_map_of_mem ArgDef.name hd))
  have hreach := processArgs_allPass cd.argDefs q hpres hok
  have hfm : (cd.argDefs.map
        (fun d => some (d.createFunc (firstValue q d.name)))).filterMap id
      = cd.argDefs.map (fun d => d.createFunc (firstValue q d.name)) := by
    rw [filterMap_id_map_some]
    exact List.filterMap_eq_map _ ▸ rfl
  have h1 : ((cd.argDefs.map
        (fun d => some (d.createFunc (firstValue q d.name)))).filterMap id).length
      = cd.argDefs.length := by
    rw [hfm, List.length_map]
  have hlen : q.length = cd.argDefs.length := by
    have hsub1 : qKeys q ⊆ cd.argDefs.map ArgDef.name :=
      fun a ha => (hmem a).mp ha
    have hsub2 : cd.argDefs.map ArgDef.name ⊆ qKeys q :=
      fun a ha => (hmem a).mpr ha
    have hle1 := nodup_subset_length hwf.1 hsub1
    have hle2 := nodup_subset_length hnd hsub2
    have e1 : (qKeys q).length = q.length := List.length_map _ _
    have e2 : (cd.argDefs.map ArgDef.name).length = cd.argDefs.length :=
      List.length_map _ _
    omega
  have h2 : ((cd.argDefs.map
        (fun d => some (d.createFunc (firstValue q d.name)))).filterMap id).length
      = countValues q := by
    rw [countValues_eq_length_of_single q hone, h1, hlen]
  have hserve := ServeHTTP_eq_handleCall h req now cd q hm hcd hq
  have hcall := handleCall_counts_ok cd q req.method req.acceptEncoding
    h.defaultSettings now _ hreach h1 h2
  rw [hfm] at hcall
  constructor
  · rw [hserve, hcall]
    exact runMethod_invocations cd _ req.method req.acceptEncoding
      h.defaultSettings now
  · intro r herr hrd
    have hrun := runMethod_success cd _ req.method req.acceptEncoding
      h.defaultSettings now r herr hrd
    rw [hserve, hcall, hrun]
    rfl

/-- C2 witness: `Echo` invoked with `name=Gopher` is invoked exactly once
with the argument built from that value, and responds 200. -/
theorem C2_witness :
    invocationsOf (ServeHTTP hAll
        ⟨"GET", "/Echo", some [("name", ["Gopher"])], ""⟩ 0)
      = [cdEcho.argDefs.map
          (fun d => d.createFunc (firstValue [("name", ["Gopher"])] d.name))] ∧
    statusOf (ServeHTTP hAll
        ⟨"GET", "/Echo", some [("name", ["Gopher"])], ""⟩ 0) = some 200 := by
  have := C2_exact_query_success hAll
    ⟨"GET", "/Echo", some [("name", ["Gopher"])], ""⟩ 0 cdEcho
    [("name", ["Gopher"])] (Or.inl rfl) rfl rfl
    (by constructor <;> decide)
    (by decide)
    (fun _ => Iff.rfl)
    (by intro p hp; simp only [List.mem_singleton] at hp; subst hp; rfl)
    (by intro d hd; simp only [cdEcho, List.mem_singleton] at hd; subst hd
        exact ⟨rfl, rfl⟩)
  exact ⟨this.1, this.2 "Echo Gopher" rfl rfl⟩

/-- C3: when a declared, present parameter is the first whose constructed
argument fails its validation step (`Check` returns the non-nil error
`e`, every earlier present declared parameter constructing and validating
cleanly), the response is exactly the error classifier's output on `e`
and the method is never invoked; in particular for a `Non500Error` the
status is the carried application code and the body its status string,
not the generic 500. -/
theorem C3_validation_error {α : Type} (h : Handler α) (req : Request)
    (now : Int) (cd : CallDef α) (q : List (String × List String)) (e : GoError)
    (ds₁ : List (ArgDef α)) (d : ArgDef α) (ds₂ : List (ArgDef α))
    (vs : List String)
    (hm : req.method = "GET" ∨ req.method = "POST")
    (hcd : h.methods.lookup (lastSegment req.path) = some cd)
    (hq : req.query = some q)
    (hsplit : cd.argDefs = ds₁ ++ d :: ds₂)
    (hprev : ∀ d' ∈ ds₁, (q.lookup d'.name).isSome = true →
      (d'.createFunc (firstValue q d'.name)).isArg = true ∧
      (d'.createFunc (firstValue q d'.name)).check = none)
    (hpres : q.lookup d.name = some vs)
    (hisarg : (d.createFunc (vs.headD "")).isArg = true)
    (hfail : (d.createFunc (vs.headD "")).check = some e) :
    ServeHTTP h req now = .resp (providerError e []) [] ∧
    ∀ n, e = .non500 n →
      statusOf (ServeHTTP h req now) = some n.ErrorCode ∧
      bodyOf (ServeHTTP h req now) = some (n.ErrorStr ++ "\n") := by
  have hpe : processArgs cd.argDefs q = .providerErr e := by
    rw [hsplit]
    exact processArgs_firstFail ds₁ d ds₂ q vs e hprev hpres hisarg hfail
  have hserve := ServeHTTP_eq_handleCall h req now cd q hm hcd hq
  have hcall := handleCall_providerErr cd q req.method req.acceptEncoding
    h.defaultSettings now e hpe
  refine ⟨by rw [hserve, hcall], ?_⟩
  rintro n rfl
  rw [hserve, hcall]
  constructor
  · simp [statusOf, providerError, httpError]
  · simp [bodyOf, providerError, httpError]

/-- C3 witness: the `ValFail` method's parameter rejects the value `bad`
with a 403 application error, and the response is that classified error. -/
theorem C3_witness :
    ServeHTTP hAll ⟨"GET", "/ValFail", some [("v", ["bad"])], ""⟩ 0
      = .resp (providerError (.non500 ⟨403, "Forbidden", ""⟩) []) [] ∧
    statusOf (ServeHTTP hAll ⟨"GET", "/ValFail", some [("v", ["bad"])], ""⟩ 0)
      = some 403 ∧
    bodyOf (ServeHTTP hAll ⟨"GET", "/ValFail", some [("v", ["bad"])], ""⟩ 0)
      = some "Forbidden\n" := by
  have := C3_validation_error hAll
    ⟨"GET", "/ValFail", some [("v", ["bad"])], ""⟩ 0 cdValFail
    [("v", ["bad"])] (.non500 ⟨403, "Forbidden", ""⟩) []
    ⟨"v", fun s =>
      ⟨s, true, if s = "bad" then some (.non500 ⟨403, "Forbidden", ""⟩)
        else none⟩⟩
    [] ["bad"] (Or.inl rfl) rfl rfl rfl
    (fun d' hd' => absurd hd' (List.not_mem_nil d')) rfl rfl rfl
  exact ⟨this.1, (this.2 _ rfl).1, (this.2 _ rfl).2⟩

/-- C9: argument construction and validation run before the
parameter-count check — when a declared, present parameter is the first
whose constructed argument fails validation with error `e`, the response
is that error's classification even if the query also contains duplicated
or undeclared extra parameters, and the method is not invoked; the
count-mismatch 500 never takes precedence. -/
theorem C9_validation_before_count {α : Type} (h : Handler α) (req : Request)
    (now : Int) (cd : CallDef α) (q : List (String × List String)) (e : GoError)
    (ds₁ : List (ArgDef α)) (d : ArgDef α) (ds₂ : List (ArgDef α))
    (vs : List String)
    (hm : req.method = "GET" ∨ req.method = "POST")
    (hcd : h.methods.lookup (lastSegment req.path) = some cd)
    (hq : req.query = some q)
    (hsplit : cd.argDefs = ds₁ ++ d :: ds₂)
    (hprev : ∀ d' ∈ ds₁, (q.lookup d'.name).isSome = true →
      (d'.createFunc (firstValue q d'.name)).isArg = true ∧
      (d'.createFunc (firstValue q d'.name)).check = none)
    (hpres : q.lookup d.name = some vs)
    (hisarg : (d.createFunc (vs.headD "")).isArg = true)
    (hfail : (d.createFunc (vs.headD "")).check = some e)
    (hbad : dupParam (cd.argDefs.map ArgDef.name) q ∨
      extraParam (cd.argDefs.map ArgDef.name) q) :
    ServeHTTP h req now = .resp (providerError e []) [] ∧
    invocationsOf (ServeHTTP h req now) = [] := by
  have hpe : processArgs cd.argDefs q = .providerErr e := by
    rw [hsplit]
    exact processArgs_firstFail ds₁ d ds₂ q vs e hprev hpres hisarg hfail
  have hserve := ServeHTTP_eq_handleCall h req now cd q hm hcd hq
  have hcall := handleCall_providerErr cd q req.method req.acceptEncoding
    h.defaultSettings now e hpe
  rw [hserve, hcall]
  exact ⟨rfl, rfl⟩

/-- C9 witness: `ValFail` with a failing value for its declared parameter
and an undeclared extra parameter responds with the 403 classification,
not with the count-mismatch 500. -/
theorem C9_witness :
    ServeHTTP hAll
        ⟨"GET", "/ValFail", some [("v", ["bad"]), ("extra", ["1"])], ""⟩ 0
      = .resp (providerError (.non500 ⟨403, "Forbidden", ""⟩) []) [] ∧
    invocationsOf (ServeHTTP hAll
        ⟨"GET", "/ValFail", some [("v", ["bad"]), ("extra", ["1"])], ""⟩ 0)
      = [] :=
  C9_validation_before_count hAll
    ⟨"GET", "/ValFail", some [("v", ["bad"]), ("extra", ["1"])], ""⟩ 0
    cdValFail [("v", ["bad"]), ("extra", ["1"])]
    (.non500 ⟨403, "Forbidden", ""⟩) []
    ⟨"v", fun s =>
      ⟨s, true, if s = "bad" then some (.non500 ⟨403, "Forbidden", ""⟩)
        else none⟩⟩
    [] ["bad"] (Or.inl rfl) rfl rfl rfl
    (fun d' hd' => absurd hd' (List.not_mem_nil d')) rfl rfl rfl
    (Or.inr (by decide))

/-- C10: the method name is always the substring of the path after the
last slash, so every GET or POST request whose path ends in a slash looks
up the empty string; when no method is registered under the empty name the
response is HTTP 500 with no invocation. -/
theorem C10_trailing_slash {α : Type} (h : Handler α) (req : Request)
    (now : Int)
    (hm : req.method = "GET" ∨ req.method = "POST")
    (hslash : ∃ t, req.path = t ++ "/")
    (hnone : h.methods.lookup "" = none) :
    lastSegment req.path = "" ∧
    ServeHTTP h req now = .resp (fiveHundredError []) [] ∧
    invocationsOf (ServeHTTP h req now) = [] := by
  have hls := lastSegment_of_endsWith_slash req.path hslash
  have h500 : ServeHTTP h req now = .resp (fiveHundredError []) [] := by
    rcases hm with hm | hm <;> simp [ServeHTTP, hm, hls, hnone]
  exact ⟨hls, h500, by rw [h500]; rfl⟩

/-- C10 witness: a GET request for `/Echo/` (trailing slash) resolves the
empty method name and is answered 500 without any invocation. -/
theorem C10_witness :
    lastSegment "/Echo/" = "" ∧
    ServeHTTP hAll ⟨"GET", "/Echo/", some [], ""⟩ 0
      = .resp (fiveHundredError []) [] ∧
    invocationsOf (ServeHTTP hAll ⟨"GET", "/Echo/", some [], ""⟩ 0) = [] :=
  C10_trailing_slash hAll ⟨"GET", "/Echo/", some [], ""⟩ 0 (Or.inl rfl)
    ⟨"/Echo", rfl⟩ rfl

/-- C5: after a successful invocation, a GET request with an effective
cache duration greater than 0 gets an `Expires` header equal to the
request-handling time plus the duration, in Go's RFC 1123 HTTP date
format; a POST request gets no `Expires` header, and none is set when the
duration is not positive. -/
theorem C5_expires_header {α : Type} (h : Handler α) (req : Request)
    (now : Int) (cd : CallDef α) (q : List (String × List String))
    (opts : List (Option (ArgValue α))) (r : String) (st : Settings)
    (hm : req.method = "GET" ∨ req.method = "POST")
    (hcd : h.methods.lookup (lastSegment req.path) = some cd)
    (hq : req.query = some q)
    (hreach : processArgs cd.argDefs q = .done opts)
    (h1 : (opts.filterMap id).length = cd.argDefs.length)
    (h2 : (opts.filterMap id).length = countValues q)
    (herr : (cd.methodFunc (opts.filterMap id)).err = none)
    (hrd : (cd.methodFunc (opts.filterMap id)).reader = some r)
    (hst : effectiveSettings h.defaultSettings (cd.methodFunc (opts.filterMap id))
      = st) :
    (st.Cache > 0 → req.method = "GET" →
      headerOf (ServeHTTP h req now) "Expires"
        = some (formatRFC1123 (now + st.Cache))) ∧
    (req.method = "POST" → headerOf (ServeHTTP h req now) "Expires" = none) ∧
    (st.Cache ≤ 0 → headerOf (ServeHTTP h req now) "Expires" = none) := by
  have hserve := ServeHTTP_eq_handleCall h req now cd q hm hcd hq
  have hcall := handleCall_counts_ok cd q req.method req.acceptEncoding
    h.defaultSettings now opts hreach h1 h2
  have hrun := runMethod_success cd (opts.filterMap id) req.method
    req.acceptEncoding h.defaultSettings now r herr hrd
  rw [hst] at hrun
  have hfull := hserve.trans (hcall.trans hrun)
  have hnone1 : getHeader (if st.ContentType ≠ "" then
      setHeader [] "Content-Type" st.ContentType else []) "Expires" = none := by
    by_cases hct : st.ContentType ≠ ""
    · rw [if_pos hct, getHeader_setHeader_ne _ _ _ _ (by decide)]
      rfl
    · rw [if_neg hct]
      rfl
  refine ⟨?_, ?_, ?_⟩
  · intro hcache hget
    rw [hfull]
    simp only [headerOf]
    have hcc : st.Cache > 0 ∧ req.method = "GET" := ⟨hcache, hget⟩
    rw [if_pos hcc]
    by_cases hg : (st.Gzip && strContains req.acceptEncoding "gzip") = true
    · rw [if_pos hg, getHeader_setHeader_ne _ _ _ _ (by decide),
        getHeader_setHeader_self]
    · rw [if_neg hg, getHeader_setHeader_self]
  · intro hpost
    have hc : ¬(st.Cache > 0 ∧ req.method = "GET") := by
      rintro ⟨_, hget⟩
      rw [hpost] at hget
      exact absurd hget (by decide)
    rw [hfull]
    simp only [headerOf]
    rw [if_neg hc]
    by_cases hg : (st.Gzip && strContains req.acceptEncoding "gzip") = true
    · rw [if_pos hg, getHeader_setHeader_ne _ _ _ _ (by decide)]
      exact hnone1
    · rw [if_neg hg]
      exact hnone1
  · intro hle
    have hc : ¬(st.Cache > 0 ∧ req.method = "GET") := by
      rintro ⟨hgt, _⟩
      omega
    rw [hfull]
    simp only [headerOf]
    rw [if_neg hc]
    by_cases hg : (st.Gzip && strContains req.acceptEncoding "gzip") = true
    · rw [if_pos hg, getHeader_setHeader_ne _ _ _ _ (by decide)]
      exact hnone1
    · rw [if_neg hg]
      exact hnone1

/-- C5 witness: the `Cache` method (cache duration 300) answers a GET at
time 0 with an `Expires` header of time 300 in RFC 1123 format. -/
theorem C5_witness :
    headerOf (ServeHTTP hAll ⟨"GET", "/Cache", some [], ""⟩ 0) "Expires"
      = some (formatRFC1123 (0 + (300 : Int))) :=
  (C5_expires_header hAll ⟨"GET", "/Cache", some [], ""⟩ 0 cdCache [] []
    "Hello World" ⟨"text/html", 300, true⟩ (Or.inl rfl) rfl rfl rfl rfl rfl
    rfl rfl rfl).1 (by decide) rfl

/-- C6: after a successful invocation, the body goes through the gzip
writer and `Content-Encoding: gzip` is set exactly when the effective
settings enable gzip and the request's `Accept-Encoding` contains "gzip";
otherwise the body is written uncompressed and no `Content-Encoding`
header is set. -/
theorem C6_gzip_encoding {α : Type} (h : Handler α) (req : Request)
    (now : Int) (cd : CallDef α) (q : List (String × List String))
    (opts : List (Option (ArgValue α))) (r : String) (st : Settings)
    (hm : req.method = "GET" ∨ req.method = "POST")
    (hcd : h.methods.lookup (lastSegment req.path) = some cd)
    (hq : req.query = some q)
    (hreach : processArgs cd.argDefs q = .done opts)
    (h1 : (opts.filterMap id).length = cd.argDefs.length)
    (h2 : (opts.filterMap id).length = countValues q)
    (herr : (cd.methodFunc (opts.filterMap id)).err = none)
    (hrd : (cd.methodFunc (opts.filterMap id)).reader = some r)
    (hst : effectiveSettings h.defaultSettings (cd.methodFunc (opts.filterMap id))
      = st) :
    ((st.Gzip && strContains req.acceptEncoding "gzip") = true →
      headerOf (ServeHTTP h req now) "Content-Encoding" = some "gzip" ∧
      gzippedOf (ServeHTTP h req now) = some true) ∧
    ((st.Gzip && strContains req.acceptEncoding "gzip") = false →
      headerOf (ServeHTTP h req now) "Content-Encoding" = none ∧
      gzippedOf (ServeHTTP h req now) = some false) := by
  have hserve := ServeHTTP_eq_handleCall h req now cd q hm hcd hq
  have hcall := handleCall_counts_ok cd q req.method req.acceptEncoding
    h.defaultSettings now opts hreach h1 h2
  have hrun := runMethod_success cd (opts.filterMap id) req.method
    req.acceptEncoding h.defaultSettings now r herr hrd
  rw [hst] at hrun
  have hfull := hserve.trans (hcall.trans hrun)
  have hnone1 : getHeader (if st.ContentType ≠ "" then
      setHeader [] "Content-Type" st.ContentType else [])
      "Content-Encoding" = none := by
    by_cases hct : st.ContentType ≠ ""
    · rw [if_pos hct, getHeader_setHeader_ne _ _ _ _ (by decide)]
      rfl
    · rw [if_neg hct]
      rfl
  constructor
  · intro hg
    rw [hfull]
    constructor
    · simp only [headerOf]
      rw [if_pos hg, getHeader_setHeader_self]
    · simp only [gzippedOf, hg]
  · intro hg
    have hgneg : ¬((st.Gzip && strContains req.acceptEncoding "gzip") = true) := by
      rw [hg]
      decide
    rw [hfull]
    constructor
    · simp only [headerOf]
      rw [if_neg hgneg]
      by_cases hcc : st.Cache > 0 ∧ req.method = "GET"
      · rw [if_pos hcc, getHeader_setHeader_ne _ _ _ _ (by decide)]
        exact hnone1
      · rw [if_neg hcc]
        exact hnone1
    · simp only [gzippedOf, hg]

/-- C6 witness: the `Cache` method (gzip enabled) with
`Accept-Encoding: gzip` answers with `Content-Encoding: gzip` and a
gzip-compressed body. -/
theorem C6_witness :
    headerOf (ServeHTTP hAll ⟨"GET", "/Cache", some [], "gzip"⟩ 0)
      "Content-Encoding" = some "gzip" ∧
    gzippedOf (ServeHTTP hAll ⟨"GET", "/Cache", some [], "gzip"⟩ 0)
      = some true :=
  (C6_gzip_encoding hAll ⟨"GET", "/Cache", some [], "gzip"⟩ 0 cdCache [] []
    "Hello World" ⟨"text/html", 300, true⟩ (Or.inl rfl) rfl rfl rfl rfl rfl
    rfl rfl rfl).1 (by decide)

/-- C7: when the invoked method returns a `Non500Error` with a redirect
code (301, 302 or 303), the response carries exactly that status and a
`Location` header from the error's carried location; with any other code
the response carries that code and the error's status string, with no
`Location` header. -/
theorem C7_redirect_location {α : Type} (h : Handler α) (req : Request)
    (now : Int) (cd : CallDef α) (q : List (String × List String))
    (opts : List (Option (ArgValue α))) (n : Non500Error)
    (hm : req.method = "GET" ∨ req.method = "POST")
    (hcd : h.methods.lookup (lastSegment req.path) = some cd)
    (hq : req.query = some q)
    (hreach : processArgs cd.argDefs q = .done opts)
    (h1 : (opts.filterMap id).length = cd.argDefs.length)
    (h2 : (opts.filterMap id).length = countValues q)
    (herr : (cd.methodFunc (opts.filterMap id)).err = some (.non500 n)) :
    (n.ErrorCode = 301 ∨ n.ErrorCode = 302 ∨ n.ErrorCode = 303 →
      statusOf (ServeHTTP h req now) = some n.ErrorCode ∧
      headerOf (ServeHTTP h req now) "Location" = some n.Location ∧
      bodyOf (ServeHTTP h req now) = some (n.ErrorStr ++ "\n")) ∧
    (¬(n.ErrorCode = 301 ∨ n.ErrorCode = 302 ∨ n.ErrorCode = 303) →
      statusOf (ServeHTTP h req now) = some n.ErrorCode ∧
      headerOf (ServeHTTP h req now) "Location" = none ∧
      bodyOf (ServeHTTP h req now) = some (n.ErrorStr ++ "\n")) := by
  have hserve := ServeHTTP_eq_handleCall h req now cd q hm hcd hq
  have hcall := handleCall_counts_ok cd q req.method req.acceptEncoding
    h.defaultSettings now opts hreach h1 h2
  have hrun := runMethod_err cd (opts.filterMap id) req.method
    req.acceptEncoding h.defaultSettings now (.non500 n) herr
  have hfull := hserve.trans (hcall.trans hrun)
  constructor
  · intro hred
    rw [hfull]
    refine ⟨by simp [statusOf, providerError, httpError], ?_,
      by simp [bodyOf, providerError, httpError]⟩
    simp only [headerOf, providerError, httpError]
    rw [if_pos hred, getHeader_setHeader_ne _ _ _ _ (by decide),
      getHeader_setHeader_ne _ _ _ _ (by decide), getHeader_setHeader_self]
  · intro hred
    rw [hfull]
    refine ⟨by simp [statusOf, providerError, httpError], ?_,
      by simp [bodyOf, providerError, httpError]⟩
    simp only [headerOf, providerError, httpError]
    rw [if_neg hred, getHeader_setHeader_ne _ _ _ _ (by decide),
      getHeader_setHeader_ne _ _ _ _ (by decide)]
    rfl

/-- C7 witness: the `ThreeOhThree` method's error
`{303, "See Other", "http://lookhere"}` produces status 303 with
`Location: http://lookhere` and the status string as body. -/
theorem C7_witness :
    statusOf (ServeHTTP hAll ⟨"GET", "/ThreeOhThree", some [], ""⟩ 0)
      = some 303 ∧
    headerOf (ServeHTTP hAll ⟨"GET", "/ThreeOhThree", some [], ""⟩ 0)
      "Location" = some "http://lookhere" ∧
    bodyOf (ServeHTTP hAll ⟨"GET", "/ThreeOhThree", some [], ""⟩ 0)
      = some "See Other\n" :=
  (C7_redirect_location hAll ⟨"GET", "/ThreeOhThree", some [], ""⟩ 0 cd303
    [] [] ⟨303, "See Other", "http://lookhere"⟩ (Or.inl rfl) rfl rfl rfl rfl
    rfl rfl).1 (by decide)

/-- C4: evaluation at the failing input. The claim (and the spec) require
`Methods.Add` to panic for any factory that is not a one-string-input,
one-output function, but the source condition at line 209 joins the two
sub-checks with `&&` instead of `||`: a one-input factory whose input kind
is `Int` (and, symmetrically, a multi-input factory whose first input is a
string) passes the check, and the `CallDef` is added without a panic. -/
theorem C4_add_accepts_bad_factory :
    MethodsAdd ([] : Methods String) "M" ["x"] [intFactory]
      = .ok [("M", [⟨"x", intFactory⟩])] := rfl

/-- C8: evaluation at the failing input. The claim (and the nil-reader
branch of the source itself, lines 178-182) expect a method returning a
nil stream with a nil error to produce a logged HTTP 500 without
panicking, but the one-value type assertion
`rvals[0].Interface().(io.Reader)` at line 177 panics on the nil interface
before that branch can run: the handler panics after the single
invocation. -/
theorem C8_nil_reader_panics :
    ServeHTTP hAll ⟨"GET", "/NilStream", some [], ""⟩ 0
      = .panicked "interface conversion: interface is nil, not io.Reader"
          [[]] := rfl

end Httpize
